import Mathlib

/-!
Verification of the scoring and ranking pipeline of the stock analyzer
(`Investment-Prediction.py`).  Numeric values are embedded as exact
rationals; the Python `round(x, 2)` (round half to even) is modelled by
`py_round2`; `np.std`, which involves a square root, is passed to the
scorer as an explicit parameter constrained by `IsStd`.
-/

namespace Invest

/-- Round half to even at integer precision, the rounding policy of the Python builtin `round`. -/
def round_half_even (y : ℚ) : ℤ :=
  let f := ⌊y⌋
  let r := y - f
  if r < 1/2 then f
  else if 1/2 < r then f + 1
  else if 2 ∣ f then f else f + 1

/-- The Python expression `round(x, 2)`. -/
def py_round2 (x : ℚ) : ℚ := (round_half_even (x * 100) : ℚ) / 100

/-- Arithmetic mean of a list, `np.mean` (0 on the empty list, as 0/0 = 0 in ℚ). -/
def mean (l : List ℚ) : ℚ := l.sum / l.length

/-- Population variance of a list, the square of `np.std` (ddof = 0). -/
def variance (l : List ℚ) : ℚ := ((l.map fun x => (x - mean l) ^ 2).sum) / l.length

/-- `s` is the value `np.std` returns on `l`: the nonnegative square root
of the population variance.  Used to constrain the `std` parameter of the
fundamental scorer, since the square root is not rational-valued. -/
def IsStd (l : List ℚ) (s : ℚ) : Prop := 0 ≤ s ∧ s ^ 2 = variance l

instance (l : List ℚ) (s : ℚ) : Decidable (IsStd l s) := by
  unfold IsStd; infer_instance

/-- The fields of `stock.info` and the trailing price history read by
`calculate_fundamental_score` and `fetch_stock_info`.  Fields that the
Python code reads with `info.get(...)` (absent → `None` / `"N/A"`) are
`Option`-valued; `history` is the list of daily closing prices. -/
structure Snapshot where
  shortName : Option String
  regularMarketPrice : Option ℚ
  marketCap : Option ℚ
  trailingPE : Option ℚ
  dividendYield : Option ℚ
  fiftyTwoWeekHigh : Option ℚ
  fiftyTwoWeekLow : Option ℚ
  history : List ℚ
  deriving DecidableEq

/-- `pe_score = 1 - min(pe, 100) / 100 if pe and pe > 0 else 0.5`
(`pe` absent, zero — falsy — or negative gives the neutral 0.5). -/
def pe_score : Option ℚ → ℚ
  | some p => if 0 < p then 1 - min p 100 / 100 else 0.5
  | none => 0.5

/-- `mc_score = min((market_cap / 1e9) / 500, 1) if market_cap and market_cap > 0 else 0`. -/
def mc_score : Option ℚ → ℚ
  | some m => if 0 < m then min ((m / 1e9) / 500) 1 else 0
  | none => 0

/-- `dy_score = min(div_yield / 0.1, 1)`. -/
def dy_score (dy : ℚ) : ℚ := min (dy / 0.1) 1

/-- `trend_score = min(max(trend, 0), 0.5) / 0.5`. -/
def trend_score (t : ℚ) : ℚ := min (max t 0) 0.5 / 0.5

/-- `vol_score = 1 - min(volatility, 0.5) / 0.5`. -/
def vol_score (v : ℚ) : ℚ := 1 - min v 0.5 / 0.5

/-- `trend = (hist["Close"][-1] - hist["Close"][0]) / hist["Close"][0]`. -/
def trend_of (closes : List ℚ) : ℚ :=
  (closes.getLastD 0 - closes.headD 0) / closes.headD 0

/-- `volatility = np.std(hist["Close"]) / np.mean(hist["Close"])`, with the
square root `np.std` supplied as the parameter `std` (see `IsStd`). -/
def volatility_of (closes : List ℚ) (std : ℚ) : ℚ := std / mean closes

/-- `calculate_fundamental_score` (lines 67–98): returns 5.0 on an empty
history, otherwise the weighted sum of the five sub-scores times 10,
rounded to 2 decimals.  `div_yield = info.get("dividendYield", 0) or 0`
maps an absent yield to 0. -/
def calculate_fundamental_score (snap : Snapshot) (std : ℚ) : ℚ :=
  if snap.history = [] then 5.0
  else
    let div_yield := snap.dividendYield.getD 0
    let trend := trend_of snap.history
    let volatility := volatility_of snap.history std
    let total_score :=
      (pe_score snap.trailingPE * 0.3
        + mc_score snap.marketCap * 0.2
        + dy_score div_yield * 0.15
        + trend_score trend * 0.25
        + vol_score volatility * 0.1) * 10
    py_round2 total_score

/-- A news article as consumed by `aggregate_sentiment`: `title` and
`description` read with `article.get(...) or ""`. -/
structure Article where
  title : Option String
  description : Option String
  deriving DecidableEq

/-- `content = f"{title}. {description}"`. -/
def article_content (a : Article) : String :=
  (a.title.getD "") ++ ". " ++ (a.description.getD "")

/-- The nine-bucket label chain of `aggregate_sentiment`, first match wins,
on the unrounded average compound score. -/
def sentiment_bucket (avg_score : ℚ) : String :=
  if avg_score ≥ 0.75 then "Extremely Positive"
  else if avg_score ≥ 0.5 then "Very Positive"
  else if avg_score ≥ 0.25 then "Positive"
  else if avg_score ≥ 0.05 then "Slightly Positive"
  else if avg_score > -0.05 then "Neutral"
  else if avg_score > -0.25 then "Slightly Negative"
  else if avg_score > -0.5 then "Negative"
  else if avg_score > -0.75 then "Very Negative"
  else "Extremely Negative"

/-- `aggregate_sentiment` (lines 120–151).  The external
`SentimentIntensityAnalyzer` is the parameter `sia`, returning the compound
polarity of a text (the code recreates the analyzer per call; it is a pure
lexicon lookup).  Empty input returns `("Neutral", 5)`. -/
def aggregate_sentiment (sia : String → ℚ) (articles : List Article) : String × ℚ :=
  if articles = [] then ("Neutral", 5)
  else
    let scores := articles.map fun a => sia (article_content a)
    let avg_score := if scores = [] then 0 else scores.sum / scores.length
    let normalized := (avg_score + 1) * 5
    (sentiment_bucket avg_score, py_round2 normalized)

/-- The arithmetic mean of the per-item compound polarities: the value
`avg_score` takes in `aggregate_sentiment` on a non-empty list. -/
def avgOf (sia : String → ℚ) (articles : List Article) : ℚ :=
  (articles.map fun a => sia (article_content a)).sum / (articles.length : ℚ)

/-- `combine_scores` (lines 153–154). -/
def combine_scores (fundamental_score sentiment_score : ℚ) : ℚ :=
  py_round2 (fundamental_score * 0.6 + sentiment_score * 0.4)

/-- `investment_label` (lines 156–164). -/
def investment_label (overall : ℚ) : String :=
  if overall ≥ 8 then "Excellent Investment"
  else if overall ≥ 6 then "Good Investment"
  else if overall ≥ 4 then "Neutral"
  else "Weak Investment"

/-- The dict appended to `stock_data` by `fetch_stock_info` (lines 271–284). -/
structure StockRecord where
  symbol : String
  company : String
  price : ℚ
  market_cap : ℚ
  pe_ratio : ℚ
  high_52w : Option ℚ
  low_52w : Option ℚ
  overall : ℚ
  fundamentals : ℚ
  sentiment_score : ℚ
  sentiment_label : String
  articles : List Article
  deriving DecidableEq

/-- The evaluation pipeline of `fetch_stock_info` (lines 236–285), after the
free-text query has been resolved by the external Yahoo symbol search
(`symbol = none` models `search_ticker_by_name` returning nothing).  The
store `stock_data` is passed and returned explicitly; the second component
is the error message shown in `invalid_label` (`none` = label cleared,
evaluation succeeded).  Network fetches (`stock.info`, history, news) are
the parameters `snap`, `std`, `articles`; `sia` is the sentiment analyzer. -/
def fetch_stock_info (sia : String → ℚ) (store : List StockRecord)
    (symbol : Option String) (snap : Snapshot) (std : ℚ)
    (articles : List Article) : List StockRecord × Option String :=
  match symbol with
  | none => (store, some "No stock found")
  | some sym =>
    if store.any fun s => s.symbol = sym then
      (store, some "Stock already in list")
    else
      let company_name := snap.shortName.getD sym
      let price := snap.regularMarketPrice
      let market_cap := snap.marketCap
      let pe_ratio := snap.trailingPE
      if price = none ∨ market_cap = none ∨ pe_ratio = none then
        (store, some "Incomplete stock data")
      else
        let fundamentals := calculate_fundamental_score snap std
        let sent := aggregate_sentiment sia articles
        let overall := combine_scores fundamentals sent.2
        (store ++ [{ symbol := sym
                     company := company_name
                     price := price.getD 0
                     market_cap := market_cap.getD 0
                     pe_ratio := pe_ratio.getD 0
                     high_52w := snap.fiftyTwoWeekHigh
                     low_52w := snap.fiftyTwoWeekLow
                     overall := overall
                     fundamentals := fundamentals
                     sentiment_score := sent.2
                     sentiment_label := sent.1
                     articles := articles }], none)

/-- The ranking computed by `update_tree` (line 293):
`sorted(stock_data, key=lambda x: x.get("overall", 0), reverse=True)` —
a stable descending sort by overall score; `sorted` builds a new list and
leaves `stock_data` itself untouched. -/
def rankedView (store : List StockRecord) : List StockRecord :=
  store.mergeSort fun a b => decide (b.overall ≤ a.overall)

/-!
The rational embedding above is exact for every input the guards of the
code allow, except one corner: `volatility = np.std(...) / np.mean(...)`
when the mean of the closes is zero.  NumPy then emits a `RuntimeWarning`
but does **not** raise, so the `except: volatility = 1` fallback never
fires, and the division yields an IEEE special value (`inf` when the
std is positive, `nan` when it is zero).  `PyF` models a Python float as
a rational extended with these special values (negative zero is not
modelled; all finite values are exact), with the operations the
volatility path uses: division, subtraction, and the Python builtin
`min`, which keeps the FIRST argument when the second is `nan`
(`min(a, b)` returns `b` iff `b < a`, and every comparison with `nan`
is false).
-/

/-- A Python float: an exact rational or an IEEE special value. -/
inductive PyF where
  | num : ℚ → PyF
  | inf : PyF
  | ninf : PyF
  | nan : PyF
  deriving DecidableEq

namespace PyF

/-- IEEE `<` on floats: every comparison involving `nan` is false. -/
def plt : PyF → PyF → Bool
  | nan, _ => false
  | _, nan => false
  | num a, num b => decide (a < b)
  | num _, inf => true
  | num _, ninf => false
  | inf, _ => false
  | ninf, ninf => false
  | ninf, _ => true

/-- The Python builtin `min(a, b)`: returns `b` iff `b < a`, so a `nan`
first argument is kept. -/
def pmin (a b : PyF) : PyF := if plt b a then b else a

/-- The Python builtin `max(a, b)`: returns `b` iff `b > a`. -/
def pmax (a b : PyF) : PyF := if plt a b then b else a

/-- IEEE float subtraction (finite values exact). -/
def psub : PyF → PyF → PyF
  | num a, num b => num (a - b)
  | nan, _ => nan
  | _, nan => nan
  | inf, inf => nan
  | inf, _ => inf
  | ninf, ninf => nan
  | ninf, _ => ninf
  | num _, inf => ninf
  | num _, ninf => inf

/-- IEEE float division (finite values exact; divisors are `+0.0` when
zero, as NumPy produces for a zero mean of nonnegative data). -/
def pdiv : PyF → PyF → PyF
  | nan, _ => nan
  | _, nan => nan
  | num a, num b =>
    if b = 0 then (if a = 0 then nan else if 0 < a then inf else ninf)
    else num (a / b)
  | num _, inf => num 0
  | num _, ninf => num 0
  | inf, num b => if 0 ≤ b then inf else ninf
  | ninf, num b => if 0 ≤ b then ninf else inf
  | inf, _ => nan
  | ninf, _ => nan

end PyF

/-- `volatility = np.std(hist["Close"]) / np.mean(hist["Close"])` as the
floating-point code actually computes it (no exception is raised on a
zero mean, so the result is an IEEE special value there). -/
def volatility_float (closes : List ℚ) (std : ℚ) : PyF :=
  PyF.pdiv (PyF.num std) (PyF.num (mean closes))

/-- `vol_score = 1 - min(volatility, 0.5) / 0.5` over Python floats. -/
def vol_score_float (volatility : PyF) : PyF :=
  PyF.psub (PyF.num 1) (PyF.pdiv (PyF.pmin volatility (PyF.num 0.5)) (PyF.num 0.5))

/-! ### Helper lemmas about the rounding model -/

theorem round_half_even_ge_floor (y : ℚ) : ⌊y⌋ ≤ round_half_even y := by
  unfold round_half_even
  dsimp only
  split_ifs <;> omega

theorem round_half_even_le_floor_succ (y : ℚ) : round_half_even y ≤ ⌊y⌋ + 1 := by
  unfold round_half_even
  dsimp only
  split_ifs <;> omega

theorem round_half_even_mono {a b : ℚ} (h : a ≤ b) :
    round_half_even a ≤ round_half_even b := by
  have hf : ⌊a⌋ ≤ ⌊b⌋ := Int.floor_le_floor h
  rcases lt_or_eq_of_le hf with hlt | heq
  · calc round_half_even a ≤ ⌊a⌋ + 1 := round_half_even_le_floor_succ a
      _ ≤ ⌊b⌋ := by omega
      _ ≤ round_half_even b := round_half_even_ge_floor b
  · have hr : a - (⌊a⌋ : ℚ) ≤ b - (⌊b⌋ : ℚ) := by
      rw [← heq]; linarith
    unfold round_half_even
    dsimp only
    rw [← heq]
    split_ifs <;> first | omega | linarith

theorem py_round2_mono {a b : ℚ} (h : a ≤ b) : py_round2 a ≤ py_round2 b := by
  unfold py_round2
  have h1 : round_half_even (a * 100) ≤ round_half_even (b * 100) :=
    round_half_even_mono (by linarith)
  have h2 : ((round_half_even (a * 100) : ℤ) : ℚ) ≤ ((round_half_even (b * 100) : ℤ) : ℚ) := by
    exact_mod_cast h1
  linarith

theorem py_round2_zero : py_round2 0 = 0 := by
  norm_num [py_round2, round_half_even]

theorem py_round2_ten : py_round2 10 = 10 := by
  norm_num [py_round2, round_half_even]

theorem py_round2_nonneg {x : ℚ} (h : 0 ≤ x) : 0 ≤ py_round2 x := by
  have := py_round2_mono h
  rwa [py_round2_zero] at this

theorem py_round2_le_ten {x : ℚ} (h : x ≤ 10) : py_round2 x ≤ 10 := by
  have := py_round2_mono h
  rwa [py_round2_ten] at this

/-- A value with at most 2 decimal places is a fixed point of `py_round2`. -/
theorem py_round2_int_div (n : ℤ) : py_round2 ((n : ℚ) / 100) = (n : ℚ) / 100 := by
  unfold py_round2 round_half_even
  have h : (n : ℚ) / 100 * 100 = (n : ℚ) := by
    field_simp
  rw [h]
  dsimp only
  rw [Int.floor_intCast]
  norm_num

/-! ### Claim theorems -/

/-- C9: if the trailing price-history window is empty,
`calculate_fundamental_score` returns the fixed neutral default 5.0
regardless of the other snapshot fields and of the std parameter. -/
theorem C9_empty_history_neutral (snap : Snapshot) (std : ℚ)
    (h : snap.history = []) : calculate_fundamental_score snap std = 5 := by
  unfold calculate_fundamental_score
  rw [if_pos h]
  norm_num

theorem C9_witness :
    calculate_fundamental_score
      ⟨some "ACME", some 10, some 1000000000, some 15, some 0, none, none, []⟩ 3 = 5 :=
  C9_empty_history_neutral _ 3 rfl

/-- C3: `combine_scores` is `round(f*0.6 + s*0.4, 2)`, the recommendation
buckets are ≥8 Excellent / [6,8) Good / [4,6) Neutral / else Weak, and in
particular `combine_scores 4.95 8 = 6.17` with label "Good Investment". -/
theorem C3_combine_and_recommendation :
    (∀ f s : ℚ, combine_scores f s = py_round2 (f * 0.6 + s * 0.4))
    ∧ (∀ v : ℚ,
        (8 ≤ v → investment_label v = "Excellent Investment")
        ∧ (6 ≤ v → v < 8 → investment_label v = "Good Investment")
        ∧ (4 ≤ v → v < 6 → investment_label v = "Neutral")
        ∧ (v < 4 → investment_label v = "Weak Investment"))
    ∧ combine_scores 4.95 8 = 6.17
    ∧ investment_label (combine_scores 4.95 8) = "Good Investment" := by
  have hc : combine_scores 4.95 8 = 6.17 := by
    unfold combine_scores
    have h : (4.95 : ℚ) * 0.6 + 8 * 0.4 = ((617 : ℤ) : ℚ) / 100 := by norm_num
    rw [h, py_round2_int_div]
    norm_num
  refine ⟨fun f s => rfl, fun v => ?_, hc, ?_⟩
  · refine ⟨fun h => ?_, fun h1 h2 => ?_, fun h1 h2 => ?_, fun h => ?_⟩ <;>
      · unfold investment_label
        split_ifs <;> first | rfl | linarith
  · rw [hc]
    unfold investment_label
    norm_num

theorem C3_witness : investment_label 7 = "Good Investment" :=
  (C3_combine_and_recommendation.2.1 7).2.1 (by norm_num) (by norm_num)

/-- C10: for scores in [0, 10], `combine_scores` is monotonically
non-decreasing in each argument, through the final rounding. -/
theorem C10_combine_monotone (f f' s s' : ℚ)
    (hf0 : 0 ≤ f) (hf1 : f ≤ 10) (hf'0 : 0 ≤ f') (hf'1 : f' ≤ 10)
    (hs0 : 0 ≤ s) (hs1 : s ≤ 10) (hs'0 : 0 ≤ s') (hs'1 : s' ≤ 10)
    (hff : f ≤ f') (hss : s ≤ s') :
    combine_scores f s ≤ combine_scores f' s
    ∧ combine_scores f s ≤ combine_scores f s' := by
  unfold combine_scores
  exact ⟨py_round2_mono (by linarith), py_round2_mono (by linarith)⟩

theorem C10_witness : combine_scores 1 4 ≤ combine_scores 2 4 :=
  (C10_combine_monotone 1 2 4 4 (by norm_num) (by norm_num) (by norm_num)
    (by norm_num) (by norm_num) (by norm_num) (by norm_num) (by norm_num)
    (by norm_num) (by norm_num)).1

/-- C1: with PE 15, market cap 250e9, dividend yield 0.02, a history rising
10% from first to last close, and a volatility ratio (std/mean) of 0.2, the
sub-scores are pe 0.85, mc 0.5, dy 0.2, trend 0.2, vol 0.6 and the
fundamentals score is exactly 4.95. -/
theorem C1_fundamentals_scenario (snap : Snapshot) (std : ℚ)
    (hpe : snap.trailingPE = some 15)
    (hmc : snap.marketCap = some 250e9)
    (hdy : snap.dividendYield = some 0.02)
    (hne : snap.history ≠ [])
    (hfirst : 0 < snap.history.headD 0)
    (hrise : snap.history.getLastD 0 = 1.1 * snap.history.headD 0)
    (hstd : IsStd snap.history std)
    (hvol : volatility_of snap.history std = 0.2) :
    pe_score snap.trailingPE = 0.85
    ∧ mc_score snap.marketCap = 0.5
    ∧ dy_score (snap.dividendYield.getD 0) = 0.2
    ∧ trend_score (trend_of snap.history) = 0.2
    ∧ vol_score (volatility_of snap.history std) = 0.6
    ∧ calculate_fundamental_score snap std = 4.95 := by
  have hf : snap.history.headD 0 ≠ 0 := ne_of_gt hfirst
  have h1 : pe_score snap.trailingPE = 0.85 := by
    rw [hpe]
    norm_num [pe_score, min_def]
  have h2 : mc_score snap.marketCap = 0.5 := by
    rw [hmc]
    norm_num [mc_score, min_def]
  have h3 : dy_score (snap.dividendYield.getD 0) = 0.2 := by
    rw [hdy]
    norm_num [dy_score, min_def]
  have h4 : trend_score (trend_of snap.history) = 0.2 := by
    have ht : trend_of snap.history = 0.1 := by
      unfold trend_of
      rw [hrise]
      have hh : (1.1 : ℚ) * snap.history.headD 0 - snap.history.headD 0
          = (1 / 10) * snap.history.headD 0 := by ring
      rw [hh, mul_div_assoc, div_self hf]
      norm_num
    rw [ht]
    norm_num [trend_score, max_def, min_def]
  have h5 : vol_score (volatility_of snap.history std) = 0.6 := by
    rw [hvol]
    norm_num [vol_score, min_def]
  refine ⟨h1, h2, h3, h4, h5, ?_⟩
  simp only [calculate_fundamental_score, if_neg hne]
  rw [h1, h2, h3, h4, h5]
  have h : ((0.85 : ℚ) * 0.3 + 0.5 * 0.2 + 0.2 * 0.15 + 0.2 * 0.25 + 0.6 * 0.1) * 10
      = ((495 : ℤ) : ℚ) / 100 := by norm_num
  rw [h, py_round2_int_div]
  norm_num

theorem C1_witness :
    calculate_fundamental_score
      ⟨some "ACME", some 10, some 250e9, some 15, some 0.02, none, none,
        [5, 13/2, 9/2, 7/2, 11/2]⟩ 1 = 4.95 :=
  (C1_fundamentals_scenario _ 1 rfl rfl rfl (by simp)
    (by norm_num) (by norm_num [List.getLastD])
    (by constructor <;> norm_num [variance, mean])
    (by norm_num [volatility_of, mean])).2.2.2.2.2

set_option maxHeartbeats 1600000 in
/-- The nine ordered threshold buckets of `sentiment_bucket`, expressed as
disjoint intervals (first match wins). -/
theorem sentiment_bucket_spec (avg : ℚ) :
    (0.75 ≤ avg → sentiment_bucket avg = "Extremely Positive")
    ∧ (0.5 ≤ avg → avg < 0.75 → sentiment_bucket avg = "Very Positive")
    ∧ (0.25 ≤ avg → avg < 0.5 → sentiment_bucket avg = "Positive")
    ∧ (0.05 ≤ avg → avg < 0.25 → sentiment_bucket avg = "Slightly Positive")
    ∧ (-0.05 < avg → avg < 0.05 → sentiment_bucket avg = "Neutral")
    ∧ (-0.25 < avg → avg ≤ -0.05 → sentiment_bucket avg = "Slightly Negative")
    ∧ (-0.5 < avg → avg ≤ -0.25 → sentiment_bucket avg = "Negative")
    ∧ (-0.75 < avg → avg ≤ -0.5 → sentiment_bucket avg = "Very Negative")
    ∧ (avg ≤ -0.75 → sentiment_bucket avg = "Extremely Negative") := by
  refine ⟨?_, ?_, ?_, ?_, ?_, ?_, ?_, ?_, ?_⟩ <;>
    · intros
      unfold sentiment_bucket
      split_ifs <;> first | rfl | linarith

/-- C2: `aggregate_sentiment` returns `("Neutral", 5.0)` on an empty list;
otherwise its score is `round((avg + 1) * 5, 2)` for `avg` the arithmetic
mean of the per-item compound polarities, and its label is the first
matching bucket of the nine ordered thresholds on the unrounded `avg`. -/
theorem C2_aggregate_sentiment (sia : String → ℚ) (articles : List Article) :
    (articles = [] → aggregate_sentiment sia articles = ("Neutral", 5))
    ∧ (articles ≠ [] →
        (aggregate_sentiment sia articles).2
          = py_round2 ((avgOf sia articles + 1) * 5)
        ∧ (0.75 ≤ avgOf sia articles →
            (aggregate_sentiment sia articles).1 = "Extremely Positive")
        ∧ (0.5 ≤ avgOf sia articles → avgOf sia articles < 0.75 →
            (aggregate_sentiment sia articles).1 = "Very Positive")
        ∧ (0.25 ≤ avgOf sia articles → avgOf sia articles < 0.5 →
            (aggregate_sentiment sia articles).1 = "Positive")
        ∧ (0.05 ≤ avgOf sia articles → avgOf sia articles < 0.25 →
            (aggregate_sentiment sia articles).1 = "Slightly Positive")
        ∧ (-0.05 < avgOf sia articles → avgOf sia articles < 0.05 →
            (aggregate_sentiment sia articles).1 = "Neutral")
        ∧ (-0.25 < avgOf sia articles → avgOf sia articles ≤ -0.05 →
            (aggregate_sentiment sia articles).1 = "Slightly Negative")
        ∧ (-0.5 < avgOf sia articles → avgOf sia articles ≤ -0.25 →
            (aggregate_sentiment sia articles).1 = "Negative")
        ∧ (-0.75 < avgOf sia articles → avgOf sia articles ≤ -0.5 →
            (aggregate_sentiment sia articles).1 = "Very Negative")
        ∧ (avgOf sia articles ≤ -0.75 →
            (aggregate_sentiment sia articles).1 = "Extremely Negative")) := by
  constructor
  · intro h
    simp [aggregate_sentiment, h]
  · intro h
    have hm : (articles.map fun a => sia (article_content a)) ≠ [] := by
      simpa using h
    have hagg : aggregate_sentiment sia articles
        = (sentiment_bucket (avgOf sia articles),
            py_round2 ((avgOf sia articles + 1) * 5)) := by
      simp only [aggregate_sentiment, if_neg h, if_neg hm, avgOf, List.length_map]
    have h1 : (aggregate_sentiment sia articles).1
        = sentiment_bucket (avgOf sia articles) := by rw [hagg]
    have h2 : (aggregate_sentiment sia articles).2
        = py_round2 ((avgOf sia articles + 1) * 5) := by rw [hagg]
    obtain ⟨b1, b2, b3, b4, b5, b6, b7, b8, b9⟩ :=
      sentiment_bucket_spec (avgOf sia articles)
    exact ⟨h2, fun hb => h1.trans (b1 hb), fun ha hb => h1.trans (b2 ha hb),
      fun ha hb => h1.trans (b3 ha hb), fun ha hb => h1.trans (b4 ha hb),
      fun ha hb => h1.trans (b5 ha hb), fun ha hb => h1.trans (b6 ha hb),
      fun ha hb => h1.trans (b7 ha hb), fun ha hb => h1.trans (b8 ha hb),
      fun hb => h1.trans (b9 hb)⟩

theorem C2_witness :
    aggregate_sentiment (fun t => 3/5) [⟨some "up", some "strong results"⟩]
      = ("Very Positive", 8) := by
  have h := (C2_aggregate_sentiment (fun t => 3/5)
    [⟨some "up", some "strong results"⟩]).2 (by simp)
  have ha : avgOf (fun t => 3/5) [⟨some "up", some "strong results"⟩] = 3/5 := by
    norm_num [avgOf]
  rw [ha] at h
  have hl := h.2.2.1 (by norm_num) (by norm_num)
  have hs := h.1
  have h8 : ((3 : ℚ)/5 + 1) * 5 = ((800 : ℤ) : ℚ) / 100 := by norm_num
  rw [h8, py_round2_int_div] at hs
  have : ((800 : ℤ) : ℚ) / 100 = 8 := by norm_num
  rw [this] at hs
  exact Prod.ext hl hs

/-! ### Sub-score bound lemmas -/

theorem mean_pos {l : List ℚ} (hne : l ≠ []) (hpos : ∀ c ∈ l, 0 < c) :
    0 < mean l := by
  unfold mean
  apply div_pos (List.sum_pos l hpos hne)
  exact_mod_cast List.length_pos.mpr hne

theorem pe_score_bounds (o : Option ℚ) : 0 ≤ pe_score o ∧ pe_score o ≤ 1 := by
  cases o with
  | none => constructor <;> norm_num [pe_score]
  | some p =>
    simp only [pe_score]
    split_ifs with h
    · have h1 : min p 100 ≤ 100 := min_le_right _ _
      have h2 : 0 < min p 100 := lt_min h (by norm_num)
      constructor <;> [linarith; linarith]
    · constructor <;> norm_num

theorem mc_score_bounds (o : Option ℚ) : 0 ≤ mc_score o ∧ mc_score o ≤ 1 := by
  cases o with
  | none => constructor <;> norm_num [mc_score]
  | some m =>
    simp only [mc_score]
    split_ifs with h
    · exact ⟨le_min (div_nonneg (div_nonneg h.le (by norm_num)) (by norm_num))
        (by norm_num), min_le_right _ _⟩
    · constructor <;> norm_num

theorem dy_score_bounds {dy : ℚ} (h : 0 ≤ dy) :
    0 ≤ dy_score dy ∧ dy_score dy ≤ 1 := by
  unfold dy_score
  exact ⟨le_min (div_nonneg h (by norm_num)) (by norm_num), min_le_right _ _⟩

theorem trend_score_bounds (t : ℚ) : 0 ≤ trend_score t ∧ trend_score t ≤ 1 := by
  unfold trend_score
  constructor
  · exact div_nonneg (le_min (le_max_right t 0) (by norm_num)) (by norm_num)
  · rw [div_le_one (by norm_num)]
    exact min_le_right _ _

theorem vol_score_bounds {v : ℚ} (h : 0 ≤ v) :
    0 ≤ vol_score v ∧ vol_score v ≤ 1 := by
  unfold vol_score
  have h1 : min v 0.5 ≤ 0.5 := min_le_right _ _
  have h2 : (0 : ℚ) ≤ min v 0.5 := le_min h (by norm_num)
  constructor
  · have : min v 0.5 / 0.5 ≤ 1 := by rw [div_le_one (by norm_num)]; linarith
    linarith
  · have : 0 ≤ min v 0.5 / 0.5 := div_nonneg h2 (by norm_num)
    linarith

/-- C7: for valid fundamentals inputs (non-empty history of positive
closes, non-negative dividend yield, `std` the actual standard deviation),
each of the five sub-scores lies in [0, 1] and the fundamentals score lies
in [0, 10]. -/
theorem C7_fundamentals_bounds (snap : Snapshot) (std : ℚ)
    (hne : snap.history ≠ [])
    (hpos : ∀ c ∈ snap.history, 0 < c)
    (hdy : 0 ≤ snap.dividendYield.getD 0)
    (hstd : IsStd snap.history std) :
    (0 ≤ pe_score snap.trailingPE ∧ pe_score snap.trailingPE ≤ 1)
    ∧ (0 ≤ mc_score snap.marketCap ∧ mc_score snap.marketCap ≤ 1)
    ∧ (0 ≤ dy_score (snap.dividendYield.getD 0)
        ∧ dy_score (snap.dividendYield.getD 0) ≤ 1)
    ∧ (0 ≤ trend_score (trend_of snap.history)
        ∧ trend_score (trend_of snap.history) ≤ 1)
    ∧ (0 ≤ vol_score (volatility_of snap.history std)
        ∧ vol_score (volatility_of snap.history std) ≤ 1)
    ∧ (0 ≤ calculate_fundamental_score snap std
        ∧ calculate_fundamental_score snap std ≤ 10) := by
  have hvol : 0 ≤ volatility_of snap.history std := by
    unfold volatility_of
    exact div_nonneg hstd.1 (mean_pos hne hpos).le
  have b1 := pe_score_bounds snap.trailingPE
  have b2 := mc_score_bounds snap.marketCap
  have b3 := dy_score_bounds hdy
  have b4 := trend_score_bounds (trend_of snap.history)
  have b5 := vol_score_bounds hvol
  refine ⟨b1, b2, b3, b4, b5, ?_, ?_⟩
  · simp only [calculate_fundamental_score, if_neg hne]
    apply py_round2_nonneg
    obtain ⟨b1a, b1b⟩ := b1
    obtain ⟨b2a, b2b⟩ := b2
    obtain ⟨b3a, b3b⟩ := b3
    obtain ⟨b4a, b4b⟩ := b4
    obtain ⟨b5a, b5b⟩ := b5
    nlinarith
  · simp only [calculate_fundamental_score, if_neg hne]
    apply py_round2_le_ten
    obtain ⟨b1a, b1b⟩ := b1
    obtain ⟨b2a, b2b⟩ := b2
    obtain ⟨b3a, b3b⟩ := b3
    obtain ⟨b4a, b4b⟩ := b4
    obtain ⟨b5a, b5b⟩ := b5
    nlinarith

theorem C7_witness :
    0 ≤ calculate_fundamental_score
      ⟨some "ACME", some 10, some 2000000000, some 30, some 0.01, none, none,
        [4, 4, 4, 4]⟩ 0
    ∧ calculate_fundamental_score
      ⟨some "ACME", some 10, some 2000000000, some 30, some 0.01, none, none,
        [4, 4, 4, 4]⟩ 0 ≤ 10 :=
  (C7_fundamentals_bounds _ 0 (by simp)
    (by intro c hc; fin_cases hc <;> norm_num)
    (by norm_num)
    (by constructor <;> norm_num [variance, mean])).2.2.2.2.2

/-- C5: adding a symbol already present in the store is rejected with the
duplicate message and the store is returned completely unchanged; moreover
`fetch_stock_info` preserves symbol uniqueness, so at most one record per
symbol ever exists. -/
theorem C5_duplicate_rejected (sia : String → ℚ) (store : List StockRecord)
    (sym : String) (snap : Snapshot) (std : ℚ) (arts : List Article) :
    ((∃ r ∈ store, r.symbol = sym) →
      fetch_stock_info sia store (some sym) snap std arts
        = (store, some "Stock already in list"))
    ∧ ((store.map StockRecord.symbol).Nodup →
        ((fetch_stock_info sia store (some sym) snap std arts).1.map
          StockRecord.symbol).Nodup) := by
  constructor
  · intro hdup
    have hany : (store.any fun s => s.symbol = sym) = true := by
      rw [List.any_eq_true]
      obtain ⟨r, hr, he⟩ := hdup
      exact ⟨r, hr, by simp [he]⟩
    simp only [fetch_stock_info, if_pos hany]
  · intro hnd
    by_cases hany : (store.any fun s => s.symbol = sym) = true
    · simp only [fetch_stock_info, if_pos hany]
      exact hnd
    · by_cases hmiss : snap.regularMarketPrice = none ∨ snap.marketCap = none
          ∨ snap.trailingPE = none
      · simp only [fetch_stock_info, if_neg hany, if_pos hmiss]
        exact hnd
      · simp only [fetch_stock_info, if_neg hany, if_neg hmiss]
        rw [List.map_append, List.nodup_append]
        refine ⟨hnd, by simp, ?_⟩
        intro a ha hb
        simp only [List.map_cons, List.map_nil, List.mem_singleton] at hb
        subst hb
        rw [List.mem_map] at ha
        obtain ⟨r, hr, he⟩ := ha
        rw [List.any_eq_true] at hany
        exact hany ⟨r, hr, by simp [he]⟩

theorem C5_witness :
    fetch_stock_info (fun t => 0)
      [{ symbol := "AAPL", company := "Apple", price := 100, market_cap := 1,
         pe_ratio := 10, high_52w := none, low_52w := none, overall := 5,
         fundamentals := 5, sentiment_score := 5, sentiment_label := "Neutral",
         articles := [] }]
      (some "AAPL") ⟨some "Apple", some 100, some 1, some 10, none, none, none, []⟩
      0 []
      = ([{ symbol := "AAPL", company := "Apple", price := 100, market_cap := 1,
            pe_ratio := 10, high_52w := none, low_52w := none, overall := 5,
            fundamentals := 5, sentiment_score := 5, sentiment_label := "Neutral",
            articles := [] }], some "Stock already in list") :=
  (C5_duplicate_rejected _ _ "AAPL" _ 0 []).1 (by simp)

/-- C6: when the snapshot is missing `regularMarketPrice`, `marketCap` or
`trailingPE` (absent / `None` / `"N/A"`), the evaluation of a new symbol is
aborted with the incomplete-data message, no record is created and the
store is unchanged; the result does not depend on the scoring inputs
(`sia`, `std`, `arts`), i.e. no scoring is performed. -/
theorem C6_incomplete_data_aborts (sia : String → ℚ) (store : List StockRecord)
    (sym : String) (snap : Snapshot) (std : ℚ) (arts : List Article)
    (hnew : ∀ r ∈ store, r.symbol ≠ sym)
    (hmiss : snap.regularMarketPrice = none ∨ snap.marketCap = none
      ∨ snap.trailingPE = none) :
    fetch_stock_info sia store (some sym) snap std arts
      = (store, some "Incomplete stock data") := by
  have hany : ¬ (store.any fun s => s.symbol = sym) = true := by
    rw [List.any_eq_true]
    push_neg
    intro r hr
    simpa using hnew r hr
  simp only [fetch_stock_info, if_neg hany, if_pos hmiss]

theorem C6_witness :
    fetch_stock_info (fun t => 0) [] (some "MSFT")
      ⟨some "Microsoft", some 400, none, some 35, none, none, none, [1, 2]⟩ 1 []
      = ([], some "Incomplete stock data") :=
  C6_incomplete_data_aborts _ [] "MSFT" _ 1 [] (by simp) (Or.inr (Or.inl rfl))

/-- A sample record for concrete instantiations. -/
def sampleRecord (sym : String) (ov : ℚ) : StockRecord :=
  { symbol := sym, company := sym, price := 1, market_cap := 1, pe_ratio := 1,
    high_52w := none, low_52w := none, overall := ov, fundamentals := 5,
    sentiment_score := 5, sentiment_label := "Neutral", articles := [] }

/-- C4: the ranked view contains exactly the stored records (a permutation
of the store), sorted by overall score descending, and the sort is stable:
any subsequence of the store already in descending score order — in
particular any group of tied records in insertion order — survives as a
subsequence of the ranked view.  `rankedView` is a pure function of the
store, so producing it leaves the store unchanged. -/
theorem C4_rankedView_sorted_stable (store : List StockRecord) :
    (rankedView store).Pairwise (fun a b => b.overall ≤ a.overall)
    ∧ (rankedView store).Perm store
    ∧ ∀ pre : List StockRecord, List.Sublist pre store →
        pre.Pairwise (fun a b => b.overall ≤ a.overall) →
        List.Sublist pre (rankedView store) := by
  have htrans : ∀ a b c : StockRecord,
      decide (b.overall ≤ a.overall) = true →
      decide (c.overall ≤ b.overall) = true →
      decide (c.overall ≤ a.overall) = true := by
    intro a b c h1 h2
    rw [decide_eq_true_eq] at h1 h2 ⊢
    exact le_trans h2 h1
  have htotal : ∀ a b : StockRecord,
      (decide (b.overall ≤ a.overall) || decide (a.overall ≤ b.overall)) = true := by
    intro a b
    rw [Bool.or_eq_true, decide_eq_true_eq, decide_eq_true_eq]
    exact le_total b.overall a.overall
  unfold rankedView
  refine ⟨?_, List.mergeSort_perm store _, ?_⟩
  · exact (List.sorted_mergeSort htrans htotal store).imp fun h =>
      of_decide_eq_true h
  · intro pre hsub hpair
    exact List.sublist_mergeSort htrans htotal
      (hpair.imp fun h => decide_eq_true h) hsub

theorem C4_witness :
    List.Sublist [sampleRecord "A" 5, sampleRecord "B" 5]
      (rankedView [sampleRecord "A" 5, sampleRecord "B" 5, sampleRecord "C" 7]) :=
  (C4_rankedView_sorted_stable
      [sampleRecord "A" 5, sampleRecord "B" 5, sampleRecord "C" 7]).2.2
    [sampleRecord "A" 5, sampleRecord "B" 5]
    (List.sublist_append_left [sampleRecord "A" 5, sampleRecord "B" 5]
      [sampleRecord "C" 7])
    (by simp [sampleRecord])

/-- C8, evaluated on the failing input: for the all-zero two-day history
the mean and the standard deviation are both 0, so in floating point the
code computes `volatility = 0/0 = NaN` (NumPy emits a warning instead of
raising, so the `except: volatility = 1` fallback is dead code) and the
volatility sub-score — and with it the fundamentals score — is NaN, not 0.
For a zero-mean history with positive dispersion ([1, -1], std 1) the ratio
is `+inf` and the sub-score is 0 as the spec says; the intended fallback
`volatility = 1` would also have produced 0. -/
theorem C8_zero_mean_volatility :
    IsStd [(0 : ℚ), 0] 0 ∧ mean [(0 : ℚ), 0] = 0
    ∧ vol_score_float (volatility_float [(0 : ℚ), 0] 0) = PyF.nan
    ∧ IsStd [(1 : ℚ), -1] 1 ∧ mean [(1 : ℚ), -1] = 0
    ∧ vol_score_float (volatility_float [(1 : ℚ), -1] 1) = PyF.num 0
    ∧ vol_score_float (PyF.num 1) = PyF.num 0 := by
  have hm0 : mean [(0 : ℚ), 0] = 0 := by norm_num [mean]
  have hm1 : mean [(1 : ℚ), -1] = 0 := by norm_num [mean]
  refine ⟨⟨le_refl 0, by norm_num [variance, mean]⟩, hm0, ?_,
    ⟨by norm_num, by norm_num [variance, mean]⟩, hm1, ?_, ?_⟩
  · norm_num [volatility_float, vol_score_float, hm0,
      PyF.pdiv, PyF.pmin, PyF.plt, PyF.psub]
  · norm_num [volatility_float, vol_score_float, hm1,
      PyF.pdiv, PyF.pmin, PyF.plt, PyF.psub]
  · norm_num [vol_score_float, PyF.pdiv, PyF.pmin, PyF.plt, PyF.psub]

end Invest
